import Mathlib

/-!
Verification of the Feldera control-plane specification against a shallow
embedding of the repository's source.  Sections follow the source files:

* `src/crates/adapters/src/transport/nexmark.rs` (Nexmark input adapter),
* `src/crates/pipeline-manager/src/runner/error.rs` (runner errors),
* `src/crates/pipeline_manager/src/db/storage.rs` (storage trait),
* `src/crates/pipeline-manager/src/integration_test.rs` (ingress, ad-hoc
  query and log-stream behaviour of the pipeline worker).
-/

/-! ## Nexmark input adapter (`nexmark.rs`) -/

/-- `PipelineState`, the status of a single connector. -/
inductive PipelineState where
  | Paused
  | Running
  | Terminated
deriving DecidableEq, Repr

/-- `NexmarkTable`: the three logical input tables. -/
inductive NexmarkTable where
  | Person
  | Auction
  | Bid
deriving DecidableEq, Repr

/-- The numeric fields of `NexmarkInputOptions` used by the generator. -/
structure NexmarkInputOptions where
  events : Nat
  threads : Nat
  batch_size_per_thread : Nat
deriving DecidableEq, Repr

/-- Rust `u64::div_ceil`: quotient plus one when the remainder is nonzero.
Faithful for a positive divisor (a zero divisor panics in Rust). -/
def divCeil (a b : Nat) : Nat :=
  a / b + if a % b = 0 then 0 else 1

/-- `n_batches` computed by `Inner::generate_thread` (nexmark.rs lines
311-313): `options.events.div_ceil(options.batch_size_per_thread *
options.threads)`. -/
def n_batches (o : NexmarkInputOptions) : Nat :=
  divCeil o.events (o.batch_size_per_thread * o.threads)

/-- Barrier waits performed by the loop of `Inner::generate_thread`
(nexmark.rs lines 328-382), starting at batch index `i` with `rem` loop
iterations remaining.  `term i = true` means `wait_to_run` observes
`Terminated` at iteration `i`; the thread then waits once per remaining
iteration (lines 331-334) and returns.  Otherwise the iteration ends with
exactly one barrier wait (line 371). -/
def generateLoopWaits (term : Nat → Bool) : Nat → Nat → Nat
  | _, 0 => 0
  | i, rem + 1 => if term i then rem + 1 else 1 + generateLoopWaits term (i + 1) rem

/-- Total barrier waits of one generator thread over its lifetime. -/
def generate_thread_waits (o : NexmarkInputOptions) (term : Nat → Bool) : Nat :=
  generateLoopWaits term 0 (n_batches o)

/-- The loop of `Inner::status` (nexmark.rs lines 209-220): iterate over the
three statuses, returning `Terminated` immediately if one is observed, and
downgrading the accumulator to `Paused` on a paused connector. -/
def statusLoop : List PipelineState → PipelineState → PipelineState
  | [], state => state
  | s :: rest, state =>
    match s with
    | .Terminated => .Terminated
    | .Paused => statusLoop rest .Paused
    | .Running => statusLoop rest state

/-- Iteration order of the `EnumMap` over the three tables. -/
def nexmarkTables : List NexmarkTable := [.Person, .Auction, .Bid]

/-- `Inner::status`: the overall status derived from the three per-table
connector statuses. -/
def Inner.status (st : NexmarkTable → PipelineState) : PipelineState :=
  statusLoop (nexmarkTables.map st) .Running

/-- `Inner::wait_to_run` (nexmark.rs lines 224-234) over the finite trace of
overall statuses it observes between parks: `Paused` observations are skipped
(the thread parks again), `Running` yields `some true` (run), `Terminated`
yields `some false` (exit); `none` means the trace ended with the thread
still parked. -/
def wait_to_run : List PipelineState → Option Bool
  | [] => none
  | s :: rest =>
    match s with
    | .Paused => wait_to_run rest
    | .Running => some true
    | .Terminated => some false

/-- `Inner::worker_thread` (nexmark.rs lines 244-272): the coordinator calls
`wait_to_run` first and spawns the generator threads only when it returns
`Ok`; on `Err` it returns without spawning anything. -/
def worker_thread_spawns (trace : List PipelineState) : Bool :=
  match wait_to_run trace with
  | some true => true
  | _ => false

/-- The fields of the `Inner` singleton mutated by `Inner::merge`: whether the
per-table parser and consumer slots are occupied, and the `OnceLock` options
cell. -/
structure MergeState where
  parsers : NexmarkTable → Bool
  consumers : NexmarkTable → Bool
  options : Option NexmarkInputOptions

/-- The freshly created singleton: empty slots, unset options. -/
def MergeState.init : MergeState :=
  ⟨fun _ => false, fun _ => false, none⟩

/-- `Inner::merge` (nexmark.rs lines 166-193).  Returns the state after the
call together with `some message` on failure.  As in the source (interior
mutability behind `&self`), mutations made before a failing check persist:
the parser and consumer slots are filled before the options cell is examined,
and `OnceLock::set` leaves the stored value untouched when it fails. -/
def Inner.merge (st : MergeState) (table : NexmarkTable)
    (opts : Option NexmarkInputOptions) : MergeState × Option String :=
  if st.parsers table then
    (st, some "more than one Nexmark input connector")
  else
    let st1 : MergeState :=
      { st with
        parsers := fun t => if t = table then true else st.parsers t
        consumers := fun t => if t = table then true else st.consumers t }
    match opts with
    | none => (st1, none)
    | some o =>
      match st1.options with
      | some _ => (st1, some "can't configure Nexmark options from two different connectors")
      | none => ({ st1 with options := some o }, none)

/-- A sequence of `Inner::merge` calls (one per connector `open`). -/
def mergeAll (st : MergeState) : List (NexmarkTable × Option NexmarkInputOptions) → MergeState
  | [] => st
  | (t, o) :: rest => mergeAll (Inner.merge st t o).1 rest

/-! ## Runner errors (`runner/error.rs`) -/

/-- HTTP 400. -/
def BAD_REQUEST : Nat := 400

/-- HTTP 500. -/
def INTERNAL_SERVER_ERROR : Nat := 500

/-- `RunnerError` (runner/error.rs lines 9-86).  Payload types are embedded
as `Nat` for identifiers and durations and `String` for messages; the payloads
are ignored by `status_code`. -/
inductive RunnerError where
  | PipelineMissingDeploymentLocation (pipeline_id : Nat) (pipeline_name : String)
  | PipelineMissingProgramInfo (pipeline_id : Nat) (pipeline_name : String)
  | PipelineMissingProgramBinaryUrl (pipeline_id : Nat) (pipeline_name : String)
  | PipelineNotRunningOrPaused (pipeline_id : Nat) (pipeline_name : String)
  | PipelineEndpointSendError (pipeline_id : Nat) (pipeline_name : Option String)
      (url : String) (error : String)
  | PipelineEndpointResponseBodyError (pipeline_id : Nat) (pipeline_name : Option String)
      (url : String) (error : String)
  | PipelineEndpointResponseJsonParseError (pipeline_id : Nat) (pipeline_name : Option String)
      (url : String) (error : String)
  | PipelineEndpointInvalidResponse (pipeline_id : Nat) (error : String)
  | PipelineProvisioningTimeout (pipeline_id : Nat) (timeout : Nat)
  | PipelineInitializingTimeout (pipeline_id : Nat) (timeout : Nat)
  | PipelineShutdownTimeout (pipeline_id : Nat) (timeout : Nat)
  | PipelineStartupError (pipeline_id : Nat) (error : String)
  | PipelineShutdownError (pipeline_id : Nat) (error : String)
  | PortFileParseError (pipeline_id : Nat) (error : String)
  | BinaryFetchError (pipeline_id : Nat) (error : String)

/-- `ResponseError::status_code` for `RunnerError` (runner/error.rs lines
276-298), with the match arms in source order. -/
def RunnerError.status_code : RunnerError → Nat
  | .PipelineMissingDeploymentLocation _ _ => INTERNAL_SERVER_ERROR
  | .PipelineMissingProgramInfo _ _ => INTERNAL_SERVER_ERROR
  | .PipelineMissingProgramBinaryUrl _ _ => INTERNAL_SERVER_ERROR
  | .PipelineNotRunningOrPaused _ _ => BAD_REQUEST
  | .PipelineEndpointSendError _ _ _ _ => INTERNAL_SERVER_ERROR
  | .PipelineEndpointResponseBodyError _ _ _ _ => INTERNAL_SERVER_ERROR
  | .PipelineEndpointResponseJsonParseError _ _ _ _ => INTERNAL_SERVER_ERROR
  | .PipelineEndpointInvalidResponse _ _ => INTERNAL_SERVER_ERROR
  | .PipelineProvisioningTimeout _ _ => INTERNAL_SERVER_ERROR
  | .PipelineInitializingTimeout _ _ => INTERNAL_SERVER_ERROR
  | .PipelineStartupError _ _ => INTERNAL_SERVER_ERROR
  | .PipelineShutdownError _ _ => INTERNAL_SERVER_ERROR
  | .PipelineShutdownTimeout _ _ => INTERNAL_SERVER_ERROR
  | .PortFileParseError _ _ => INTERNAL_SERVER_ERROR
  | .BinaryFetchError _ _ => INTERNAL_SERVER_ERROR

/-- Whether a `RunnerError` is the `PipelineNotRunningOrPaused` variant. -/
def RunnerError.isPipelineNotRunningOrPaused : RunnerError → Bool
  | .PipelineNotRunningOrPaused _ _ => true
  | _ => false

/-! ## Helper lemmas -/

theorem generateLoopWaits_eq (term : Nat → Bool) :
    ∀ (rem i : Nat), generateLoopWaits term i rem = rem := by
  intro rem
  induction rem with
  | zero => intro i; rfl
  | succ n ih =>
    intro i
    show (if term i then n + 1 else 1 + generateLoopWaits term (i + 1) n) = n + 1
    by_cases h : term i
    · simp [h]
    · simp [h, ih (i + 1), Nat.add_comm]

theorem divCeil_eq_ceilDiv (a b : Nat) (h : 0 < b) : divCeil a b = a ⌈/⌉ b := by
  have hd := Nat.div_add_mod a b
  have hr : a % b < b := Nat.mod_lt _ h
  rw [Nat.ceilDiv_eq_add_pred_div]
  unfold divCeil
  by_cases h0 : a % b = 0
  · rw [if_pos h0, Nat.add_zero]
    have ha : a + b - 1 = b * (a / b) + (b - 1) := by omega
    rw [ha, Nat.mul_add_div h, Nat.div_eq_of_lt (show b - 1 < b by omega), Nat.add_zero]
  · rw [if_neg h0]
    have ha : a + b - 1 = b * (a / b + 1) + (a % b - 1) := by
      have hm : b * (a / b + 1) = b * (a / b) + b := by ring
      omega
    rw [ha, Nat.mul_add_div h, Nat.div_eq_of_lt (show a % b - 1 < b by omega), Nat.add_zero]

theorem merge_preserves_options (st : MergeState) (t : NexmarkTable)
    (opts : Option NexmarkInputOptions) (o : NexmarkInputOptions)
    (h : st.options = some o) : (Inner.merge st t opts).1.options = some o := by
  unfold Inner.merge
  by_cases hp : st.parsers t
  · simp [hp, h]
  · cases opts with
    | none => simp [hp, h]
    | some o' => simp [hp, h]

/-! ## Claim theorems: Nexmark adapter -/

/-- C1: every generator thread waits on the shared barrier exactly
`ceil(events / (batch_size_per_thread * threads))` times over its lifetime,
for every termination schedule `term` — both when it runs all batches to
completion and when it observes `Terminated` partway; in the latter case it
performs exactly the remaining number of barrier waits before returning
(second conjunct). -/
theorem nexmark_generator_barrier_wait_count :
    (∀ (o : NexmarkInputOptions) (term : Nat → Bool),
      0 < o.batch_size_per_thread * o.threads →
      generate_thread_waits o term = o.events ⌈/⌉ (o.batch_size_per_thread * o.threads)) ∧
    (∀ (term : Nat → Bool) (i rem : Nat), term i = true →
      generateLoopWaits term i (rem + 1) = rem + 1) := by
  constructor
  · intro o term h
    unfold generate_thread_waits n_batches
    rw [generateLoopWaits_eq, divCeil_eq_ceilDiv _ _ h]
  · intro term i rem h
    show (if term i then rem + 1 else 1 + generateLoopWaits term (i + 1) rem) = rem + 1
    simp [h]

/-- Witness for C1 at a concrete configuration: 10 events, 2 threads, batch
size 3 per thread, exiting early at batch 1. -/
theorem nexmark_generator_barrier_wait_count_witness :
    generate_thread_waits ⟨10, 2, 3⟩ (fun i => decide (i = 1)) = 10 ⌈/⌉ (3 * 2) ∧
    generateLoopWaits (fun i => decide (i = 1)) 1 (0 + 1) = 0 + 1 :=
  ⟨nexmark_generator_barrier_wait_count.1 ⟨10, 2, 3⟩ _ (by decide),
   nexmark_generator_barrier_wait_count.2 _ 1 0 (by decide)⟩

theorem wait_to_run_paused (rest : List PipelineState) :
    wait_to_run (PipelineState.Paused :: rest) = wait_to_run rest := rfl

/-- C5: the overall generator status is `Terminated` if any table connector
is `Terminated`, otherwise `Paused` if any is `Paused`, otherwise `Running`
(first conjunct); and the coordinator thread spawns the generator threads
only once the overall status it observes first becomes `Running`: it spawns
iff some observation in its trace is `Running` and every earlier observation
is `Paused` (second conjunct). -/
theorem nexmark_overall_status_and_spawn :
    (∀ st : NexmarkTable → PipelineState,
      Inner.status st =
        if st .Person = .Terminated ∨ st .Auction = .Terminated ∨ st .Bid = .Terminated then
          .Terminated
        else if st .Person = .Paused ∨ st .Auction = .Paused ∨ st .Bid = .Paused then
          .Paused
        else .Running) ∧
    (∀ tr : List PipelineState,
      worker_thread_spawns tr = true ↔
        ∃ k : Nat, tr[k]? = some PipelineState.Running ∧ ∀ j : Nat, j < k → tr[j]? = some PipelineState.Paused) := by
  constructor
  · intro st
    cases hP : st .Person <;> cases hA : st .Auction <;> cases hB : st .Bid <;>
      simp [Inner.status, nexmarkTables, statusLoop, hP, hA, hB]
  · intro tr
    induction tr with
    | nil => simp [worker_thread_spawns, wait_to_run]
    | cons s rest ih =>
      cases s with
      | Running =>
        refine iff_of_true rfl ⟨0, ?_, fun j hj => absurd hj (Nat.not_lt_zero j)⟩
        simp
      | Terminated =>
        refine iff_of_false (by simp [worker_thread_spawns, wait_to_run]) ?_
        rintro ⟨k, hk, hbefore⟩
        cases k with
        | zero => simp at hk
        | succ k' =>
          have h0 := hbefore 0 (Nat.succ_pos k')
          simp at h0
      | Paused =>
        have hstep : worker_thread_spawns (PipelineState.Paused :: rest) =
            worker_thread_spawns rest := by
          simp [worker_thread_spawns, wait_to_run]
        rw [hstep, ih]
        constructor
        · rintro ⟨k, hk, hbefore⟩
          refine ⟨k + 1, by simpa using hk, fun j hj => ?_⟩
          cases j with
          | zero => simp
          | succ j' => simpa using hbefore j' (Nat.lt_of_succ_lt_succ hj)
        · rintro ⟨k, hk, hbefore⟩
          cases k with
          | zero => simp at hk
          | succ k' =>
            refine ⟨k', by simpa using hk, fun j hj => ?_⟩
            have hj1 := hbefore (j + 1) (Nat.succ_lt_succ hj)
            simpa using hj1

/-- Witness for C5: a concrete status assignment (Bid paused, others running)
yields overall `Paused`, and a concrete trace parks through two `Paused`
observations and then spawns on `Running`. -/
theorem nexmark_overall_status_and_spawn_witness :
    Inner.status
        (fun t => match t with
          | .Person => .Running
          | .Auction => .Running
          | .Bid => .Paused) = .Paused ∧
    worker_thread_spawns [.Paused, .Paused, .Running] = true := by
  constructor
  · rw [nexmark_overall_status_and_spawn.1]
    decide
  · rw [nexmark_overall_status_and_spawn.2]
    exact ⟨2, rfl, by decide⟩

/-- C6: across all `Inner::merge` calls on the singleton the options record is
set at most once.  First conjunct: an open that supplies options while none
are stored (and whose table slot is still free, so the open itself is not
rejected) stores them and succeeds.  Second conjunct: once options are
stored, every later open supplying options makes `merge` return an error
and leaves the stored options unchanged.  Third conjunct: stored options
survive any sequence of further merge calls unchanged. -/
theorem nexmark_options_set_at_most_once :
    (∀ (st : MergeState) (t : NexmarkTable) (o : NexmarkInputOptions),
      st.options = none → st.parsers t = false →
      (Inner.merge st t (some o)).1.options = some o ∧
        (Inner.merge st t (some o)).2 = none) ∧
    (∀ (st : MergeState) (t : NexmarkTable) (o o' : NexmarkInputOptions),
      st.options = some o →
      (Inner.merge st t (some o')).2.isSome = true ∧
        (Inner.merge st t (some o')).1.options = some o) ∧
    (∀ (st : MergeState) (o : NexmarkInputOptions)
      (seq : List (NexmarkTable × Option NexmarkInputOptions)),
      st.options = some o → (mergeAll st seq).options = some o) := by
  refine ⟨?_, ?_, ?_⟩
  · intro st t o hopt hslot
    unfold Inner.merge
    simp [hslot, hopt]
  · intro st t o o' hopt
    unfold Inner.merge
    by_cases hp : st.parsers t
    · simp [hp, hopt]
    · simp [hp, hopt]
  · intro st o seq
    induction seq generalizing st with
    | nil => intro h; exact h
    | cons p rest ih =>
      intro h
      exact ih _ (merge_preserves_options st p.1 p.2 o h)

/-- Witness for C6: starting from the fresh singleton, the first open (for
`Person`) stores options `⟨100, 2, 5⟩`; a second open (for `Auction`) that
also supplies options returns an error and the stored options are unchanged. -/
theorem nexmark_options_set_at_most_once_witness :
    (Inner.merge MergeState.init .Person (some ⟨100, 2, 5⟩)).1.options = some ⟨100, 2, 5⟩ ∧
    (Inner.merge (Inner.merge MergeState.init .Person (some ⟨100, 2, 5⟩)).1 .Auction
        (some ⟨7, 1, 1⟩)).2.isSome = true ∧
    (Inner.merge (Inner.merge MergeState.init .Person (some ⟨100, 2, 5⟩)).1 .Auction
        (some ⟨7, 1, 1⟩)).1.options = some ⟨100, 2, 5⟩ := by
  have h1 := nexmark_options_set_at_most_once.1 MergeState.init .Person ⟨100, 2, 5⟩ rfl rfl
  have h2 := nexmark_options_set_at_most_once.2.1
    (Inner.merge MergeState.init .Person (some ⟨100, 2, 5⟩)).1 .Auction ⟨100, 2, 5⟩ ⟨7, 1, 1⟩ h1.1
  exact ⟨h1.1, h2.1, h2.2⟩

/-! ## Claim theorems: runner errors -/

/-- C10: `RunnerError::status_code` maps exactly the
`PipelineNotRunningOrPaused` variant to HTTP 400 and every other variant —
including the three lifecycle timeout variants — to HTTP 500. -/
theorem runner_error_status_code_mapping :
    (∀ e : RunnerError,
      e.status_code =
        if e.isPipelineNotRunningOrPaused then BAD_REQUEST else INTERNAL_SERVER_ERROR) ∧
    (∀ id t, (RunnerError.PipelineProvisioningTimeout id t).status_code = 500) ∧
    (∀ id t, (RunnerError.PipelineInitializingTimeout id t).status_code = 500) ∧
    (∀ id t, (RunnerError.PipelineShutdownTimeout id t).status_code = 500) ∧
    (∀ id name, (RunnerError.PipelineNotRunningOrPaused id name).status_code = 400) := by
  refine ⟨fun e => ?_, fun _ _ => rfl, fun _ _ => rfl, fun _ _ => rfl, fun _ _ => rfl⟩
  cases e <;> rfl

/-! ## Storage (`db/storage.rs`) -/

/-- `ProgramStatus` as described by the spec (section 3); the enum itself is
referenced but not defined under src. -/
inductive ProgramStatus where
  | Pending
  | CompilingSql
  | CompilingRust
  | Success
  | SqlError (messages : String)
  | RustError (message : String)
  | SystemError (message : String)
deriving DecidableEq, Repr

/-- Whether a program status is `Pending`. -/
def ProgramStatus.isPending : ProgramStatus → Bool
  | .Pending => true
  | _ => false

/-- One program row of the relational store (spec section 3). -/
structure ProgramRow where
  tenant_id : Nat
  program_id : Nat
  version : Nat
  code : String
  status : ProgramStatus
  status_since : Nat
deriving DecidableEq, Repr

/-- Merge of two candidate oldest-pending rows: prefer the one with the
earlier `status_since` (left wins ties). -/
def mergeOldest : Option ProgramRow → Option ProgramRow → Option ProgramRow
  | none, b => b
  | some a, none => some a
  | some a, some b => if a.status_since ≤ b.status_since then some a else some b

/-- Modelled from the spec: the implementation of `Storage::next_job` is not
under src — storage.rs lines 137-141 only declare it in the Storage trait.
Per the spec (section 4.1 step 1) the compiler reconciler asks for the oldest
program with status `Pending`, i.e. the pending program with the earliest
`status_since`.  Rows earlier in the list win ties. -/
def oldestPending : List ProgramRow → Option ProgramRow
  | [] => none
  | r :: rest =>
    mergeOldest (if r.status.isPending then some r else none) (oldestPending rest)

/-- `Storage::next_job`: the `(tenant_id, program_id, version)` triple of the
oldest pending program, or `none` when no program is pending. -/
def next_job (db : List ProgramRow) : Option (Nat × Nat × Nat) :=
  (oldestPending db).map fun r => (r.tenant_id, r.program_id, r.version)

theorem oldestPending_spec (db : List ProgramRow) :
    (oldestPending db = none ↔ ∀ r ∈ db, r.status.isPending = false) ∧
    (∀ b, oldestPending db = some b →
      b ∈ db ∧ b.status.isPending = true ∧
        ∀ r2 ∈ db, r2.status.isPending = true → b.status_since ≤ r2.status_since) := by
  induction db with
  | nil => simp [oldestPending]
  | cons r rest ih =>
    obtain ⟨ihn, ihs⟩ := ih
    by_cases hp : r.status.isPending = true
    · cases hrest : oldestPending rest with
      | none =>
        have hall := ihn.mp hrest
        constructor
        · simp [oldestPending, hrest, hp, mergeOldest]
        · intro b hb
          simp only [oldestPending, hrest, hp, if_pos, mergeOldest] at hb
          cases hb
          refine ⟨List.mem_cons_self r rest, hp, ?_⟩
          intro r2 hr2 hp2
          rcases List.mem_cons.mp hr2 with h | h
          · rw [h]
          · rw [hall r2 h] at hp2
            cases hp2
      | some c =>
        obtain ⟨hcmem, hcp, hcmin⟩ := ihs c hrest
        constructor
        · constructor
          · intro h
            simp only [oldestPending, hrest, hp, if_pos, mergeOldest] at h
            split at h <;> cases h
          · intro h
            rw [h r (List.mem_cons_self r rest)] at hp
            cases hp
        · intro b hb
          simp only [oldestPending, hrest, hp, if_pos, mergeOldest] at hb
          by_cases hle : r.status_since ≤ c.status_since
          · rw [if_pos hle] at hb
            cases hb
            refine ⟨List.mem_cons_self r rest, hp, ?_⟩
            intro r2 hr2 hp2
            rcases List.mem_cons.mp hr2 with h | h
            · rw [h]
            · exact le_trans hle (hcmin r2 h hp2)
          · rw [if_neg hle] at hb
            cases hb
            refine ⟨List.mem_cons_of_mem r hcmem, hcp, ?_⟩
            intro r2 hr2 hp2
            rcases List.mem_cons.mp hr2 with h | h
            · rw [h]
              exact le_of_lt (lt_of_not_le hle)
            · exact hcmin r2 h hp2
    · have hp' : r.status.isPending = false := by
        cases hq : r.status.isPending
        · rfl
        · exact absurd hq hp
      have hunf : oldestPending (r :: rest) = oldestPending rest := by
        simp [oldestPending, hp', mergeOldest]
      constructor
      · rw [hunf, ihn]
        constructor
        · intro h r2 hr2
          rcases List.mem_cons.mp hr2 with hh | hh
          · rw [hh]; exact hp'
          · exact h r2 hh
        · intro h r2 hr2
          exact h r2 (List.mem_cons_of_mem r hr2)
      · intro b hb
        rw [hunf] at hb
        obtain ⟨hbm, hbp, hbmin⟩ := ihs b hb
        refine ⟨List.mem_cons_of_mem r hbm, hbp, ?_⟩
        intro r2 hr2 hp2
        rcases List.mem_cons.mp hr2 with h | h
        · rw [h, hp'] at hp2
          cases hp2
        · exact hbmin r2 h hp2

/-- C4: `Storage::next_job` returns the oldest pending compilation job —
`none` exactly when no program is `Pending` (first conjunct), and otherwise
the `(tenant, program, version)` triple of a pending program whose
`status_since` is earliest among all pending programs (second conjunct). -/
theorem storage_next_job_oldest_pending (db : List ProgramRow) :
    (next_job db = none ↔ ∀ r ∈ db, r.status.isPending = false) ∧
    (∀ t p v, next_job db = some (t, p, v) →
      ∃ r ∈ db, r.status.isPending = true ∧ r.tenant_id = t ∧ r.program_id = p ∧
        r.version = v ∧
        ∀ r2 ∈ db, r2.status.isPending = true → r.status_since ≤ r2.status_since) := by
  obtain ⟨hn, hs⟩ := oldestPending_spec db
  constructor
  · rw [show next_job db = (oldestPending db).map
      (fun r => (r.tenant_id, r.program_id, r.version)) from rfl]
    rw [Option.map_eq_none']
    exact hn
  · intro t p v h
    obtain ⟨r, hr, heq⟩ := Option.map_eq_some'.mp h
    obtain ⟨hmem, hpend, hmin⟩ := hs r hr
    obtain ⟨h1, h2, h3⟩ : r.tenant_id = t ∧ r.program_id = p ∧ r.version = v := by
      have := heq
      simp only [Prod.mk.injEq] at this
      exact ⟨this.1, this.2.1, this.2.2⟩
    exact ⟨r, hmem, hpend, h1, h2, h3, hmin⟩

/-- A concrete three-row program table: rows 10 and 20 are pending (since 5
and 3), row 30 already compiled. -/
def exampleRows : List ProgramRow :=
  [⟨1, 10, 2, "create view v1;", ProgramStatus.Pending, 5⟩,
   ⟨1, 20, 7, "create view v2;", ProgramStatus.Pending, 3⟩,
   ⟨2, 30, 1, "create view v3;", ProgramStatus.Success, 1⟩]

/-- Witness for C4: on `exampleRows`, `next_job` returns the pending row with
the earliest `status_since` (tenant 1, program 20, version 7). -/
theorem storage_next_job_oldest_pending_witness :
    ∃ r ∈ exampleRows, r.status.isPending = true ∧ r.tenant_id = 1 ∧ r.program_id = 20 ∧
      r.version = 7 ∧
      ∀ r2 ∈ exampleRows, r2.status.isPending = true → r.status_since ≤ r2.status_since :=
  (storage_next_job_oldest_pending exampleRows).2 1 20 7 (by decide)

/-- A program database keyed by `(tenant_id, program_id)`. -/
abbrev ProgramDB := Nat × Nat → Option ProgramRow

/-- The `DBError` cases relevant to guarded program updates. -/
inductive DBError where
  | UnknownProgram
  | OutdatedProgramVersion (expected : Nat)
deriving DecidableEq, Repr

/-- The row produced by an unguarded application of `update_program`: the
status replaces the stored one when supplied; new code replaces the stored
code and bumps the version (spec section 3, invariant 1). -/
def updatedRow (row : ProgramRow) (code : Option String)
    (status : Option ProgramStatus) : ProgramRow :=
  { row with
    code := code.getD row.code
    version := match code with | some _ => row.version + 1 | none => row.version
    status := status.getD row.status }

/-- Modelled from the spec: `Storage::update_program` is only declared in the
Storage trait (storage.rs lines 90-100); its database implementation is not
under src.  Per the spec (sections 4.1, 9 and the glossary entry for version
guards), when a `guard` is supplied the update is applied only if the stored
row's `version` equals the guard; on mismatch the store is left unchanged and
the failure is reported to the caller.  The result is the database after the
call paired with the reported error, if any. -/
def update_program (db : ProgramDB) (tenant_id program_id : Nat)
    (code : Option String) (status : Option ProgramStatus) (guard : Option Nat) :
    ProgramDB × Option DBError :=
  match db (tenant_id, program_id) with
  | none => (db, some DBError.UnknownProgram)
  | some row =>
    match guard with
    | none =>
      (fun k => if k = (tenant_id, program_id) then some (updatedRow row code status) else db k,
       none)
    | some expected =>
      if row.version = expected then
        (fun k => if k = (tenant_id, program_id) then some (updatedRow row code status) else db k,
         none)
      else (db, some (DBError.OutdatedProgramVersion expected))

/-- `Storage::set_program_status_guarded` (storage.rs lines 56-75): the trait
default method delegates to `update_program` with no field updates other than
the status, passing the expected version as the guard. -/
def set_program_status_guarded (db : ProgramDB) (tenant_id program_id expected_version : Nat)
    (status : ProgramStatus) : ProgramDB × Option DBError :=
  update_program db tenant_id program_id none (some status) (some expected_version)

/-- C7: `set_program_status_guarded` applies the status update only when the
stored program version equals `expected_version` (first conjunct: matching
guard updates exactly the addressed row's status and reports no error); on a
guard mismatch the database — in particular the program row — is unchanged
and the failure is reported (second conjunct); a missing program also leaves
the database unchanged and reports an error (third conjunct). -/
theorem storage_set_program_status_guarded_cas (db : ProgramDB)
    (t p v : Nat) (status : ProgramStatus) :
    (∀ row, db (t, p) = some row → row.version = v →
      set_program_status_guarded db t p v status =
        (fun k => if k = (t, p) then some { row with status := status } else db k, none)) ∧
    (∀ row, db (t, p) = some row → row.version ≠ v →
      set_program_status_guarded db t p v status =
        (db, some (DBError.OutdatedProgramVersion v))) ∧
    (db (t, p) = none →
      set_program_status_guarded db t p v status = (db, some DBError.UnknownProgram)) := by
  refine ⟨?_, ?_, ?_⟩
  · intro row hrow hv
    unfold set_program_status_guarded update_program
    rw [hrow]
    simp only [if_pos hv]
    rfl
  · intro row hrow hv
    unfold set_program_status_guarded update_program
    rw [hrow]
    simp only [if_neg hv]
  · intro hnone
    unfold set_program_status_guarded update_program
    rw [hnone]

/-- A one-row database: tenant 1, program 10, version 3, pending. -/
def exampleDB : ProgramDB :=
  fun k => if k = (1, 10) then some ⟨1, 10, 3, "create view v1;", ProgramStatus.Pending, 5⟩
    else none

/-- Witness for C7 on `exampleDB`: the update with the matching guard 3
succeeds, while the update with the stale guard 4 reports the version
mismatch and returns the database unchanged. -/
theorem storage_set_program_status_guarded_cas_witness :
    (set_program_status_guarded exampleDB 1 10 3 ProgramStatus.CompilingSql).2 = none ∧
    (set_program_status_guarded exampleDB 1 10 4 ProgramStatus.CompilingSql).2 =
      some (DBError.OutdatedProgramVersion 4) ∧
    (set_program_status_guarded exampleDB 1 10 4 ProgramStatus.CompilingSql).1 = exampleDB := by
  have h1 := (storage_set_program_status_guarded_cas exampleDB 1 10 3
    ProgramStatus.CompilingSql).1 ⟨1, 10, 3, "create view v1;", ProgramStatus.Pending, 5⟩
    (by decide) rfl
  have h2 := (storage_set_program_status_guarded_cas exampleDB 1 10 4
    ProgramStatus.CompilingSql).2.1 ⟨1, 10, 3, "create view v1;", ProgramStatus.Pending, 5⟩
    (by decide) (by decide)
  exact ⟨congrArg Prod.snd h1, congrArg Prod.snd h2, congrArg Prod.fst h2⟩

/-! ## Ingress (`integration_test.rs`, `json_ingress`; endpoint modelled) -/

/-- One per-record failure as reported in the `details.errors` array of a
`ParseErrors` response (integration_test.rs lines 1152 and 1175): the
1-based event number, the offending field and the invalid text. -/
structure ParseFailure where
  event_number : Nat
  field : String
  invalid_text : String
deriving DecidableEq, Repr

/-- Response of an ingress request: HTTP 200, or HTTP 400 carrying a
`ParseErrors` body with the list of per-record failures. -/
inductive IngressResponse where
  | ok
  | parseErrors (errors : List ParseFailure)
deriving DecidableEq, Repr

/-- The parse failures of a batch, numbering records from `n` upward; a
parser returns either the typed row or the failing field with the invalid
text. -/
def collectParseFailures {Rec Row : Type} (parse : Rec → Except (String × String) Row) :
    Nat → List Rec → List ParseFailure
  | _, [] => []
  | n, r :: rest =>
    match parse r with
    | .error (f, t) => ⟨n, f, t⟩ :: collectParseFailures parse (n + 1) rest
    | .ok _ => collectParseFailures parse (n + 1) rest

/-- The rows of the records that parse. -/
def parsedRows {Rec Row : Type} (parse : Rec → Except (String × String) Row)
    (batch : List Rec) : List Row :=
  batch.filterMap fun r => (parse r).toOption

/-- Modelled from the spec: the worker's ingress endpoint is not under src;
only the integration test exercising it is.  With `array=true` the batch is
pre-validated (spec section 9): if any record fails to parse, the table is
left unchanged — the records that parsed successfully are not ingested
either — and the endpoint responds HTTP 400 with a `ParseErrors` body;
otherwise every record is appended and the endpoint responds HTTP 200
(test lines 1124-1164). -/
def ingress_array {Rec Row : Type} (parse : Rec → Except (String × String) Row)
    (table : List Row) (batch : List Rec) : List Row × IngressResponse :=
  match collectParseFailures parse 1 batch with
  | [] => (table ++ parsedRows parse batch, IngressResponse.ok)
  | e :: rest => (table, IngressResponse.parseErrors (e :: rest))

/-- Modelled from the spec: with `array=false` (newline-delimited records)
the records are streamed (spec sections 8 and 9): every record that parses
is appended even when other records of the same request fail, and if any
record failed the endpoint responds HTTP 400 with a `ParseErrors` body
listing every failed record (test lines 1166-1187). -/
def ingress_stream {Rec Row : Type} (parse : Rec → Except (String × String) Row)
    (table : List Row) (batch : List Rec) : List Row × IngressResponse :=
  (table ++ parsedRows parse batch,
   match collectParseFailures parse 1 batch with
   | [] => IngressResponse.ok
   | e :: rest => IngressResponse.parseErrors (e :: rest))

theorem collectParseFailures_eq_nil {Rec Row : Type}
    (parse : Rec → Except (String × String) Row) :
    ∀ (batch : List Rec) (n : Nat),
      collectParseFailures parse n batch = [] ↔ ∀ r ∈ batch, (parse r).isOk = true := by
  intro batch
  induction batch with
  | nil => intro n; simp [collectParseFailures]
  | cons r rest ih =>
    intro n
    cases hp : parse r with
    | error ft =>
      obtain ⟨f, t⟩ := ft
      simp only [collectParseFailures, hp]
      constructor
      · intro h; cases h
      · intro h
        have := h r (List.mem_cons_self r rest)
        rw [hp] at this
        cases this
    | ok row =>
      simp only [collectParseFailures, hp]
      rw [ih (n + 1)]
      constructor
      · intro h r2 hr2
        rcases List.mem_cons.mp hr2 with hh | hh
        · rw [hh, hp]; rfl
        · exact h r2 hh
      · intro h r2 hr2
        exact h r2 (List.mem_cons_of_mem r hr2)

theorem collectParseFailures_mem {Rec Row : Type}
    (parse : Rec → Except (String × String) Row) :
    ∀ (batch : List Rec) (n i : Nat) (hi : i < batch.length) (f t : String),
      parse (batch.get ⟨i, hi⟩) = .error (f, t) →
      (⟨n + i, f, t⟩ : ParseFailure) ∈ collectParseFailures parse n batch := by
  intro batch
  induction batch with
  | nil => intro n i hi; cases hi
  | cons r rest ih =>
    intro n i hi f t hparse
    cases i with
    | zero =>
      simp only [List.get] at hparse
      simp only [collectParseFailures, hparse, Nat.add_zero]
      exact List.mem_cons_self _ _
    | succ i' =>
      simp only [List.get] at hparse
      have hi' : i' < rest.length := Nat.lt_of_succ_lt_succ hi
      have hmem := ih (n + 1) i' hi' f t hparse
      have harith : n + 1 + i' = n + (i' + 1) := by omega
      rw [harith] at hmem
      cases hp : parse r with
      | error ft =>
        obtain ⟨f0, t0⟩ := ft
        simp only [collectParseFailures, hp]
        exact List.mem_cons_of_mem _ hmem
      | ok row =>
        simp only [collectParseFailures, hp]
        exact hmem

theorem parsedRows_length_of_all_ok {Rec Row : Type}
    (parse : Rec → Except (String × String) Row) :
    ∀ batch : List Rec, (∀ r ∈ batch, (parse r).isOk = true) →
      (parsedRows parse batch).length = batch.length := by
  intro batch
  induction batch with
  | nil => intro _; rfl
  | cons r rest ih =>
    intro h
    have hr := h r (List.mem_cons_self r rest)
    cases hp : parse r with
    | error ft =>
      rw [hp] at hr
      cases hr
    | ok row =>
      have htail := ih fun r2 hr2 => h r2 (List.mem_cons_of_mem r hr2)
      simp only [parsedRows, List.filterMap] at htail ⊢
      rw [hp]
      show (row :: List.filterMap (fun r => (parse r).toOption) rest).length = rest.length + 1
      rw [List.length_cons, htail]

/-- C2: with `array=true`, a batch containing any failing record leaves the
table unchanged — even its successfully parsed records are not ingested —
and produces an HTTP 400 `ParseErrors` response (first conjunct); a batch in
which every record parses is ingested in full with an HTTP 200 response
(second conjunct). -/
theorem ingress_array_atomic {Rec Row : Type}
    (parse : Rec → Except (String × String) Row) (table : List Row) (batch : List Rec) :
    ((∃ r ∈ batch, (parse r).isOk = false) →
      (ingress_array parse table batch).1 = table ∧
      ∃ e rest, (ingress_array parse table batch).2 = IngressResponse.parseErrors (e :: rest)) ∧
    ((∀ r ∈ batch, (parse r).isOk = true) →
      (ingress_array parse table batch).1 = table ++ parsedRows parse batch ∧
      (ingress_array parse table batch).2 = IngressResponse.ok ∧
      (parsedRows parse batch).length = batch.length) := by
  constructor
  · rintro ⟨r, hr, hfail⟩
    have hne : collectParseFailures parse 1 batch ≠ [] := by
      intro hnil
      have := (collectParseFailures_eq_nil parse batch 1).mp hnil r hr
      rw [this] at hfail
      cases hfail
    unfold ingress_array
    cases hc : collectParseFailures parse 1 batch with
    | nil => exact absurd hc hne
    | cons e rest => exact ⟨rfl, e, rest, rfl⟩
  · intro hok
    have hnil : collectParseFailures parse 1 batch = [] :=
      (collectParseFailures_eq_nil parse batch 1).mpr hok
    unfold ingress_array
    rw [hnil]
    exact ⟨rfl, rfl, parsedRows_length_of_all_ok parse batch hok⟩

/-- C3: with `array=false`, every record that parses is ingested even when
other records of the request fail (first and second conjuncts), and every
failed record is listed in the HTTP 400 `ParseErrors` response with its
1-based `event_number`, failing `field` and `invalid_text` (third
conjunct). -/
theorem ingress_stream_nonatomic {Rec Row : Type}
    (parse : Rec → Except (String × String) Row) (table : List Row) (batch : List Rec) :
    ((ingress_stream parse table batch).1 = table ++ parsedRows parse batch) ∧
    (∀ r ∈ batch, ∀ row, parse r = .ok row → row ∈ (ingress_stream parse table batch).1) ∧
    (∀ (i : Nat) (hi : i < batch.length) (f t : String),
      parse (batch.get ⟨i, hi⟩) = .error (f, t) →
      ∃ e rest, (ingress_stream parse table batch).2 = IngressResponse.parseErrors (e :: rest) ∧
        (⟨i + 1, f, t⟩ : ParseFailure) ∈ e :: rest) := by
  refine ⟨rfl, ?_, ?_⟩
  · intro r hr row hrow
    show row ∈ table ++ parsedRows parse batch
    refine List.mem_append_right table ?_
    unfold parsedRows
    refine List.mem_filterMap.mpr ⟨r, hr, ?_⟩
    rw [hrow]
    rfl
  · intro i hi f t hparse
    have hmem := collectParseFailures_mem parse batch 1 i hi f t hparse
    have harith : 1 + i = i + 1 := Nat.add_comm 1 i
    rw [harith] at hmem
    show ∃ e rest,
      (match collectParseFailures parse 1 batch with
        | [] => IngressResponse.ok
        | e :: rest => IngressResponse.parseErrors (e :: rest)) =
          IngressResponse.parseErrors (e :: rest) ∧ (⟨i + 1, f, t⟩ : ParseFailure) ∈ e :: rest
    cases hc : collectParseFailures parse 1 batch with
    | nil =>
      rw [hc] at hmem
      cases hmem
    | cons e rest =>
      rw [hc] at hmem
      exact ⟨e, rest, rfl, hmem⟩

/-- The array-mode batch of the test (integration_test.rs lines 1142-1148): a
valid insert, a delete with a bad boolean in field c2, and an insert with a
bad integer in field c1. -/
def arrayBatch : List String :=
  ["[35, true, \"\"]", "[40, \"foo\", \"buzz\"]", "[true, true, \"\"]"]

/-- The newline-delimited batch of the test (integration_test.rs lines
1166-1171): same failing records, first record inserts 25. -/
def streamBatch : List String :=
  ["[25, true, \"\"]", "[40, \"foo\", \"buzz\"]", "[true, true, \"\"]"]

/-- The parse outcomes of the test records: the two malformed records fail
with the field reported by the test, all other records parse to themselves. -/
def testParse : String → Except (String × String) String := fun r =>
  if r = "[40, \"foo\", \"buzz\"]" then Except.error ("c2", r)
  else if r = "[true, true, \"\"]" then Except.error ("c1", r)
  else Except.ok r

/-- Witness for C2 on the test batch: record 2 fails, so nothing is ingested
into the empty table and the response is a `ParseErrors` body; dropping the
bad records, the remaining batch is ingested in full. -/
theorem ingress_array_atomic_witness :
    ((ingress_array testParse [] arrayBatch).1 = [] ∧
      ∃ e rest, (ingress_array testParse [] arrayBatch).2 =
        IngressResponse.parseErrors (e :: rest)) ∧
    ((ingress_array testParse [] ["[35, true, \"\"]"]).1 = [] ++
        parsedRows testParse ["[35, true, \"\"]"] ∧
      (ingress_array testParse [] ["[35, true, \"\"]"]).2 = IngressResponse.ok ∧
      (parsedRows testParse ["[35, true, \"\"]"]).length = 1) :=
  ⟨(ingress_array_atomic testParse [] arrayBatch).1
      ⟨"[40, \"foo\", \"buzz\"]", by decide, by decide⟩,
   (ingress_array_atomic testParse [] ["[35, true, \"\"]"]).2 (by decide)⟩

/-- Witness for C3 on the test batch: the successfully parsed record 1 is
ingested although records 2 and 3 fail, and each failure appears in the
`ParseErrors` list with its event number, field and invalid text. -/
theorem ingress_stream_nonatomic_witness :
    "[25, true, \"\"]" ∈ (ingress_stream testParse [] streamBatch).1 ∧
    (∃ e rest, (ingress_stream testParse [] streamBatch).2 =
      IngressResponse.parseErrors (e :: rest) ∧
      (⟨2, "c2", "[40, \"foo\", \"buzz\"]"⟩ : ParseFailure) ∈ e :: rest) :=
  ⟨(ingress_stream_nonatomic testParse [] streamBatch).2.1 "[25, true, \"\"]" (by decide)
      "[25, true, \"\"]" rfl,
   (ingress_stream_nonatomic testParse [] streamBatch).2.2 1 (by decide) "c2"
      "[40, \"foo\", \"buzz\"]" rfl⟩

/-! ## Ad-hoc INSERT (`integration_test.rs`, `pipeline_adhoc_query`;
endpoint modelled) -/

/-- Modelled from the spec: the worker's ad-hoc query engine is not under
src; only the integration test `pipeline_adhoc_query` (lines 1954-1985) is.
Per the spec (section 4.3), an ad-hoc INSERT steps the circuit before the
response closes, so the inserted rows are committed to the table when the
response is produced, and the response carries the count of inserted rows. -/
def adhoc_insert {Row : Type} (table : List Row) (rows : List Row) : List Row × Nat :=
  (table ++ rows, rows.length)

/-- Modelled from the spec: an ad-hoc `SELECT COUNT(*)` on the same
connection observes the committed table contents. -/
def adhoc_count {Row : Type} (table : List Row) : Nat := table.length

/-- C8: an ad-hoc INSERT returns `count = N` where `N` is the number of rows
inserted (first conjunct); because the circuit is stepped before the insert
response closes, a subsequent COUNT on the same connection observes every
inserted row (second conjunct), and each inserted row is visible to a
subsequent SELECT (third conjunct). -/
theorem adhoc_insert_count_then_visible {Row : Type} (table rows : List Row) :
    (adhoc_insert table rows).2 = rows.length ∧
    adhoc_count (adhoc_insert table rows).1 = adhoc_count table + rows.length ∧
    ∀ r ∈ rows, r ∈ (adhoc_insert table rows).1 := by
  refine ⟨rfl, ?_, ?_⟩
  · show (table ++ rows).length = table.length + rows.length
    exact List.length_append table rows
  · intro r hr
    exact List.mem_append_right table hr

/-- Witness for C8 with the test's numbers: the table holds 5 rows, the
INSERT adds rows 99 and 100, the response count is 2 and the subsequent
COUNT returns 7. -/
theorem adhoc_insert_count_then_visible_witness :
    (adhoc_insert [1, 2, 3, 4, 5] [99, 100]).2 = 2 ∧
    adhoc_count (adhoc_insert [1, 2, 3, 4, 5] [99, 100]).1 = 7 ∧
    (99 : Nat) ∈ (adhoc_insert [1, 2, 3, 4, 5] [99, 100]).1 :=
  ⟨(adhoc_insert_count_then_visible [1, 2, 3, 4, 5] [99, 100]).1,
   ((adhoc_insert_count_then_visible [1, 2, 3, 4, 5] [99, 100]).2.1).trans (by decide),
   (adhoc_insert_count_then_visible [1, 2, 3, 4, 5] [99, 100]).2.2 99 (by decide)⟩

/-! ## Log stream (`integration_test.rs`, `pipeline_logs`; endpoint
modelled) -/

/-- Whether character list `s` starts with `e`. -/
def listStartsWith (s e : List Char) : Bool := s.take e.length == e

/-- Rust `str::ends_with` over the characters of the strings. -/
def strEndsWith (s e : String) : Bool :=
  decide (e.data.length ≤ s.data.length) && s.data.drop (s.data.length - e.data.length) == e.data

/-- Whether `needle` occurs anywhere in `s`. -/
def strContainsSub (s needle : String) : Bool :=
  (List.range (s.data.length + 1)).any fun i => listStartsWith (s.data.drop i) needle.data

/-- The sentinel served while the pipeline worker has not been spawned
(integration_test.rs lines 2152-2158 and 2216-2222). -/
def notStartedSentinel : String :=
  "LOG STREAM UNAVAILABLE: the pipeline has likely not yet started\n"

/-- The four endings the code accepts for a log stream that was held open
across a shutdown (integration_test.rs lines 2199-2214). -/
def postShutdownEndings : List String :=
  ["LOG STREAM END: pipeline is being shutdown\n",
   "LOG STREAM END: stdout and stderr are finished\n",
   "LOG STREAM END: no longer available, please try again later\n",
   "LOG STREAM UNAVAILABLE: please try again later\n"]

/-- The assertion of `pipeline_logs` on a log stream observed across
shutdown: its body must end with one of the four endings. -/
def acceptedPostShutdownLog (s : String) : Bool :=
  postShutdownEndings.any fun e => strEndsWith s e

/-- The terminator named by the spec sentence for C9. -/
def claimedTerminator : String := "LOG STREAM END: no longer available"

/-- Log-stream phases distinguished by the test. -/
inductive LogPhase where
  | notStarted
  | afterShutdown
deriving DecidableEq, Repr

/-- Modelled from the spec: the manager's `/logs` endpoint is not under src;
only the integration test is.  Before the worker process has been spawned it
responds HTTP 200 with the not-yet-started sentinel (test lines 2152-2158);
a fresh request after shutdown again yields HTTP 200 with the same sentinel
(test lines 2216-2222). -/
def logsEndpoint : LogPhase → Nat × String
  | .notStarted => (200, notStartedSentinel)
  | .afterShutdown => (200, notStartedSentinel)

/-- C9 counterexample: the code accepts for a stream observed across
shutdown the ending "LOG STREAM UNAVAILABLE: please try again later\n",
which does not contain the terminator claimed by the spec anywhere (second
conjunct), and even the accepted ending about unavailability does not end
with the claimed terminator, because the source string continues with
", please try again later" (third conjunct). -/
theorem pipeline_logs_claimed_terminator_refuted :
    acceptedPostShutdownLog "LOG STREAM UNAVAILABLE: please try again later\n" = true ∧
    strContainsSub "LOG STREAM UNAVAILABLE: please try again later\n" claimedTerminator = false ∧
    strEndsWith "LOG STREAM END: no longer available, please try again later\n" claimedTerminator
      = false := by
  refine ⟨?_, ?_, ?_⟩ <;> decide

/-- C9 (amended): before the worker is spawned the logs endpoint responds
HTTP 200 with the sentinel line "LOG STREAM UNAVAILABLE: the pipeline has
likely not yet started" (first conjunct); a log stream held open across
shutdown ends with one of four terminator lines, each of which either starts
with "LOG STREAM END: " or is the retry-later unavailability sentinel
(second conjunct); the ending that reports the buffered log is no longer
available is among the accepted ones (third conjunct); and a fresh logs
request after shutdown returns the not-yet-started sentinel again (fourth
conjunct). -/
theorem pipeline_logs_sentinels :
    logsEndpoint LogPhase.notStarted = (200, notStartedSentinel) ∧
    (postShutdownEndings.all fun e =>
      listStartsWith e.data "LOG STREAM END: ".data ||
        (e == "LOG STREAM UNAVAILABLE: please try again later\n")) = true ∧
    acceptedPostShutdownLog "LOG STREAM END: no longer available, please try again later\n"
      = true ∧
    logsEndpoint LogPhase.afterShutdown = (200, notStartedSentinel) := by
  refine ⟨rfl, by decide, by decide, rfl⟩
